import Mathlib

/-!
Verification of the invoice-organizing tool (auto-invoice).

Shallow embedding of the code in src/src/utils/llm.ts (latest version in the
file: parseInvoiceWithLLM with vision mode and PDF text fallback),
src/src/utils/export.ts (exportToExcel, exportSummaryToExcel) and the
persistence effect in src/src/App.tsx.

Conventions of the embedding:
* JavaScript numbers are modelled by Rat.  Every amount appearing in the
  claims (553.5, 100, 50, 0, ...) is exact in both binary floating point and
  Rat, so the models agree on all inputs the claims touch.
* Fallible code returns Except String (the thrown Error message) or Option.
* External boundaries (the remote LLM service, JSON.parse, the PDF/OCR
  extractors) are passed in as explicit oracle arguments; everything the
  repository itself computes is translated concretely.
* The characters U+007B and U+007D are written via Char.ofNat and the
  escapes \x7b / \x7d.
-/

/-- The character U+007B (opening curly brace). -/
def openBrace : Char := Char.ofNat 123

/-- The character U+007D (closing curly brace). -/
def closeBrace : Char := Char.ofNat 125

/-- Model of a JSON-ish JavaScript value (the values flowing out of
JSON.parse and out of the remote service response).  Object field lists are
assumed duplicate-free (JSON.parse keeps the last duplicate; the oracle is
assumed to deliver the normalized object). -/
inductive JsonVal where
  | null : JsonVal
  | bool (b : Bool) : JsonVal
  | num (q : Rat) : JsonVal
  | str (s : String) : JsonVal
  | arr (elems : List JsonVal) : JsonVal
  | obj (fields : List (String × JsonVal)) : JsonVal

/-- Field lookup in an object field list (JavaScript property read). -/
def lookupField : List (String × JsonVal) → String → Option JsonVal
  | [], _ => none
  | (k, v) :: rest, key => if k = key then some v else lookupField rest key

/-- JavaScript property access `v[key]`: `some` = the property value,
`none` = undefined.  Non-objects yield undefined for these keys. -/
def jget : JsonVal → String → Option JsonVal
  | JsonVal.obj fields, key => lookupField fields key
  | _, _ => none

/-- JavaScript index access `v[i]` on an array; undefined otherwise. -/
def jidx : JsonVal → Nat → Option JsonVal
  | JsonVal.arr l, i => l.get? i
  | _, _ => none

/-- JavaScript truthiness of a value. -/
def jsTruthy : JsonVal → Bool
  | JsonVal.null => false
  | JsonVal.bool b => b
  | JsonVal.num q => if q = 0 then false else true
  | JsonVal.str s => if s = "" then false else true
  | JsonVal.arr _ => true
  | JsonVal.obj _ => true

/-- Does the character list start with the given needle? (helper for
JavaScript String.prototype.includes). -/
def listStartsWith : List Char → List Char → Bool
  | _, [] => true
  | [], _ :: _ => false
  | a :: as, b :: bs => a == b && listStartsWith as bs

/-- Does the character list contain the needle as a contiguous run? -/
def listHasSub : List Char → List Char → Bool
  | [], needle => needle.isEmpty
  | c :: rest, needle => listStartsWith (c :: rest) needle || listHasSub rest needle

/-- JavaScript `s.includes(sub)`. -/
def strContains (s sub : String) : Bool := listHasSub s.toList sub.toList

/-- ASCII decimal digit test. -/
def isDigitCh (c : Char) : Bool := '0' ≤ c && c ≤ '9'

/-- JavaScript whitespace skipped by parseFloat (the ASCII part; the claims
only involve ASCII/CJK payloads with no exotic spaces). -/
def isJsSpace (c : Char) : Bool :=
  c == ' ' || c == '\t' || c == '\n' || c == '\r' || c == Char.ofNat 11 || c == Char.ofNat 12

/-- Numeric value of a digit run. -/
def digitsVal (ds : List Char) : Nat :=
  ds.foldl (fun n c => 10 * n + (c.toNat - 48)) 0

/-- The syntactic pieces of a successful parseFloat parse: sign, integer
digits value, fraction digits value, number of fraction digits, decimal
exponent. -/
structure FloatParts where
  neg : Bool
  ip : Nat
  fp : Nat
  flen : Nat
  expo : Int
deriving DecidableEq

/-- The rational value denoted by the parsed pieces. -/
def ratOfParts (p : FloatParts) : Rat :=
  let sign : Rat := if p.neg then -1 else 1
  let mant : Rat := (p.ip : Rat) + (p.fp : Rat) / ((10 : Rat) ^ p.flen)
  let scale : Rat :=
    if p.expo < 0 then (((10 : Rat) ^ (-p.expo).toNat))⁻¹ else (10 : Rat) ^ p.expo.toNat
  sign * mant * scale

/-- The parsing phase of the JavaScript builtin parseFloat: skip leading
whitespace, optional sign, longest prefix of the form
digits [ . digits ] [ (e|E) [sign] digits ]; `none` models NaN.
The Infinity keyword is not modelled (no finite Rat denotes it and no claim
concerns it). -/
def parseFloatParts (s : String) : Option FloatParts :=
  let cs0 := s.toList.dropWhile isJsSpace
  let neg : Bool := match cs0 with
    | c :: _ => c = '-'
    | [] => false
  let cs := match cs0 with
    | c :: rest => if c = '-' || c = '+' then rest else cs0
    | [] => cs0
  let ip := cs.takeWhile isDigitCh
  let cs1 := cs.dropWhile isDigitCh
  let fp := match cs1 with
    | c :: rest => if c = '.' then rest.takeWhile isDigitCh else []
    | [] => []
  let cs2 := match cs1 with
    | c :: rest => if c = '.' then rest.dropWhile isDigitCh else cs1
    | [] => []
  if ip.isEmpty && fp.isEmpty then none
  else
    let expo : Int := match cs2 with
      | c :: rest =>
        if c = 'e' || c = 'E' then
          match rest with
          | d :: rest2 =>
            if d = '+' then (digitsVal (rest2.takeWhile isDigitCh) : Int)
            else if d = '-' then -(digitsVal (rest2.takeWhile isDigitCh) : Int)
            else if isDigitCh d then (digitsVal ((d :: rest2).takeWhile isDigitCh) : Int)
            else 0
          | [] => 0
        else 0
      | [] => 0
    some { neg := neg, ip := digitsVal ip, fp := digitsVal fp, flen := fp.length, expo := expo }

/-- Model of the JavaScript builtin parseFloat on a string; `none` is NaN. -/
def parseFloatStr (s : String) : Option Rat :=
  (parseFloatParts s).map ratOfParts

/-- parseFloat applied to an arbitrary JavaScript value (the value is first
converted to a string).  `none` models NaN.  Array-valued inputs (which
JavaScript would stringify element-wise) are not modelled faithfully and
yield NaN; no claim involves an array amount.  The num case never arises in
parseJSONResponse (guarded by the typeof check) and is modelled as the
identity. -/
def parseFloatOfVal : Option JsonVal → Option Rat
  | some (JsonVal.str s) => parseFloatStr s
  | some (JsonVal.bool b) => parseFloatStr (if b then "true" else "false")
  | some JsonVal.null => parseFloatStr "null"
  | some (JsonVal.obj _) => parseFloatStr "[object Object]"
  | some (JsonVal.num q) => some q
  | some (JsonVal.arr _) => none
  | none => none

/-- The four valid invoice categories, as in `validTypes` of
parseJSONResponse (src/src/utils/llm.ts). -/
def validTypes : List String :=
  ["intercity_transport", "intracity_transport", "accommodation", "registration_fee"]

/-- `validTypes.includes(parsed.type) ? parsed.type : null`
(src/src/utils/llm.ts, parseJSONResponse). -/
def coerceType (parsed : JsonVal) : Option String :=
  match jget parsed "type" with
  | some (JsonVal.str s) => if validTypes.contains s then some s else none
  | _ => none

/-- `typeof parsed.amount === 'number' ? parsed.amount :
(parseFloat(parsed.amount) || null)` (src/src/utils/llm.ts,
parseJSONResponse).  The `|| null` step turns the falsy results 0 and NaN
into null. -/
def coerceAmount (parsed : JsonVal) : Option Rat :=
  match jget parsed "amount" with
  | some (JsonVal.num q) => some q
  | v =>
    match parseFloatOfVal v with
    | some q => if q = 0 then none else some q
    | none => none

/-- `x || null` on an optional JavaScript value (used for the date and
description fields of parseJSONResponse). -/
def coerceTruthy (v : Option JsonVal) : Option JsonVal :=
  match v with
  | some x => if jsTruthy x then some x else none
  | none => none

/-- The record assembled by parseJSONResponse (a Partial of InvoiceInfo). -/
structure ParsedInvoice where
  type : Option String
  amount : Option Rat
  date : Option JsonVal
  description : Option JsonVal
  rawText : String

/-- Keep the list from its first occurrence of `target` (inclusive);
`none` when absent. -/
def fromFirstChar (target : Char) : List Char → Option (List Char)
  | [] => none
  | c :: rest => if c = target then some (c :: rest) else fromFirstChar target rest

/-- `content.match(/\x7b[\s\S]*\x7d/)`: the greedy regex match running from
the first opening brace to the last closing brace, `none` when the text has
no opening brace followed later by a closing brace. -/
def extractJsonSpanL (cs : List Char) : Option (List Char) :=
  match fromFirstChar openBrace cs with
  | none => none
  | some tail =>
    match fromFirstChar closeBrace tail.reverse with
    | none => none
    | some rev => some rev.reverse

/-- parseJSONResponse (src/src/utils/llm.ts): extract the widest
brace-delimited span, hand it to JSON.parse (the oracle `jp`; its `.error`
carries the SyntaxError message), then validate/coerce the fields.  The
json-not-found message carries the first 200 characters of the response
(UTF-16 slice in the source; identical for the BMP text involved here). -/
def parseJSONResponse (jp : String → Except String JsonVal) (content : String) :
    Except String ParsedInvoice :=
  match extractJsonSpanL content.toList with
  | none => Except.error ("无法从返回内容中提取JSON: " ++ content.take 200)
  | some span =>
    match jp (String.mk span) with
    | Except.error e => Except.error e
    | Except.ok parsed =>
      Except.ok
        { type := coerceType parsed
          amount := coerceAmount parsed
          date := coerceTruthy (jget parsed "date")
          description := coerceTruthy (jget parsed "description")
          rawText := content }

/-- The chained access `response.choices?.[0]?.message?.content` of
parseWithTextMode. -/
def chain1 (resp : JsonVal) : Option JsonVal :=
  (((jget resp "choices").bind fun c => jidx c 0).bind fun m => jget m "message").bind
    fun m => jget m "content"

/-- `typeof v === 'string' ? some of that string : none` (undefined values
included). -/
def asStr : Option JsonVal → Option String
  | some (JsonVal.str s) => some s
  | _ => none

/-- The else-if ladder of parseWithTextMode after the standard OpenAI shape:
a top-level string "content" field, else a top-level string "result" field,
else a string "result.content" field; the `typeof === 'string'` guards
accept the empty string. -/
def selectRest (resp : JsonVal) : Option JsonVal :=
  match asStr (jget resp "content") with
  | some s => some (JsonVal.str s)
  | none =>
    match asStr (jget resp "result") with
    | some s => some (JsonVal.str s)
    | none =>
      match asStr ((jget resp "result").bind fun r => jget r "content") with
      | some s => some (JsonVal.str s)
      | none => none

/-- The value of the local variable `content` after the shape ladder of
parseWithTextMode: the truthy chained OpenAI content wins, otherwise the
else-if ladder runs. -/
def selectContent (resp : JsonVal) : Option JsonVal :=
  match chain1 resp with
  | some v => if jsTruthy v then some v else selectRest resp
  | none => selectRest resp

/-- The thrown unsupported-format message of parseWithTextMode.  The source
appends JSON.stringify(response).slice(0, 500); that diagnostic payload is
not modelled (no claim inspects it). -/
def unsupportedFormatMsg : String := "API返回格式不支持"

/-- parseWithTextMode (src/src/utils/llm.ts) from the point the remote
response value is in hand: pick the content by the four-shape ladder, throw
when it is falsy, else parse it.  A truthy non-string (impossible for a
well-typed service) would crash in `content.match`; modelled as the thrown
TypeError. -/
def parseWithTextMode (jp : String → Except String JsonVal) (resp : JsonVal) :
    Except String ParsedInvoice :=
  match selectContent resp with
  | some (JsonVal.str s) =>
    if s = "" then Except.error unsupportedFormatMsg else parseJSONResponse jp s
  | some v =>
    if jsTruthy v then Except.error "TypeError: content.match is not a function"
    else Except.error unsupportedFormatMsg
  | none => Except.error unsupportedFormatMsg

/-- parseWithVisionMode (src/src/utils/llm.ts) from the point the remote
response value is in hand: `message?.content || message?.reasoning_content`,
throw on falsy content, else parse. -/
def parseWithVisionMode (jp : String → Except String JsonVal) (resp : JsonVal) :
    Except String ParsedInvoice :=
  let message := ((jget resp "choices").bind fun c => jidx c 0).bind fun c => jget c "message"
  let content : Option JsonVal :=
    match message.bind (fun m => jget m "content") with
    | some v =>
      if jsTruthy v then some v else message.bind (fun m => jget m "reasoning_content")
    | none => message.bind (fun m => jget m "reasoning_content")
  match content with
  | some (JsonVal.str s) =>
    if s = "" then Except.error "API返回内容为空" else parseJSONResponse jp s
  | some v =>
    if jsTruthy v then Except.error "TypeError: content.match is not a function"
    else Except.error "API返回内容为空"
  | none => Except.error "API返回内容为空"

/-- The four-category invoice taxonomy (src/src/types, InvoiceType). -/
inductive InvoiceType where
  | intercity_transport : InvoiceType
  | intracity_transport : InvoiceType
  | accommodation : InvoiceType
  | registration_fee : InvoiceType
deriving DecidableEq

/-- The per-record status enum (src/src/types, InvoiceInfo.parseStatus). -/
inductive ParseStatus where
  | pending : ParseStatus
  | parsing : ParseStatus
  | success : ParseStatus
  | error : ParseStatus
deriving DecidableEq

/-- The browser File handle attached to an invoice: only its name and
declared MIME type (file.type in the source) matter to the logic. -/
structure FileRec where
  name : String
  mime : String
deriving DecidableEq

/-- InvoiceInfo (src/src/types). -/
structure InvoiceInfo where
  id : String
  fileName : String
  type : Option InvoiceType
  amount : Option Rat
  date : Option String
  description : Option String
  rawText : Option String
  file : Option FileRec
  imageBase64 : Option String
  parseStatus : ParseStatus
  errorMessage : Option String
deriving DecidableEq

/-- PersonInfo (src/src/types). -/
structure PersonInfo where
  id : String
  name : String
  employeeId : String
  invoices : List InvoiceInfo
deriving DecidableEq

/-- ASCII lower-casing of one character (JavaScript toLowerCase restricted
to ASCII; file extensions are ASCII). -/
def lowerCh (c : Char) : Char :=
  if 'A' ≤ c && c ≤ 'Z' then Char.ofNat (c.toNat + 32) else c

/-- JavaScript `s.toLowerCase()` on ASCII text. -/
def strToLower (s : String) : String := String.mk (s.toList.map lowerCh)

/-- JavaScript `s.endsWith(suffix)`. -/
def strEndsWith (s suffix : String) : Bool :=
  listStartsWith s.toList.reverse suffix.toList.reverse

/-- isPDF (src/src/utils/llm.ts): document MIME type, or file name ending
in .pdf case-insensitively. -/
def isPDF (f : FileRec) : Bool :=
  f.mime == "application/pdf" || strEndsWith (strToLower f.name) ".pdf"

/-- The vision-mode attempt of parseInvoiceWithLLM: the remote call may
fail in transport (`visionCall = .error msg`) or deliver a response value
that parseWithVisionMode then processes. -/
def attemptVision (jp : String → Except String JsonVal)
    (visionCall : Except String JsonVal) : Except String ParsedInvoice :=
  match visionCall with
  | Except.error e => Except.error e
  | Except.ok resp => parseWithVisionMode jp resp

/-- The reclassified unsupported-image message thrown by
parseInvoiceWithLLM when vision mode fails on a non-PDF with a message
containing 400 or 参数. -/
def unsupportedImageMsg : String :=
  "当前 API 不支持图片识别，请上传 PDF 格式的发票，或使用支持视觉功能的模型"

/-- Lines 430-439 of src/src/utils/llm.ts: extract the PDF text layer
(oracle `pdfExtract`), fail on empty text, then run text-mode structuring
(remote call oracle `textCall` feeding parseWithTextMode); non-PDF files
reaching this point fail with the unsupported-format error. -/
def pdfTextPipeline (jp : String → Except String JsonVal)
    (textCall : Except String JsonVal) (pdfExtract : Except String String)
    (f : FileRec) : Except String ParsedInvoice :=
  if isPDF f then
    match pdfExtract with
    | Except.error e => Except.error e
    | Except.ok text =>
      if text = "" then Except.error "PDF 文字提取失败，文件可能是扫描件"
      else
        match textCall with
        | Except.error e => Except.error e
        | Except.ok resp => parseWithTextMode jp resp
  else Except.error "不支持的文件格式"

/-- parseInvoiceWithLLM (src/src/utils/llm.ts, lines 400-440): require a
file; if a raster payload is present try vision mode first, and on failure
either reclassify/rethrow (non-PDF) or fall back to the PDF text pipeline;
without a raster payload only PDFs proceed (to the same text pipeline). -/
def parseInvoiceWithLLM (jp : String → Except String JsonVal)
    (visionCall : Except String JsonVal) (textCall : Except String JsonVal)
    (pdfExtract : Except String String) (inv : InvoiceInfo) :
    Except String ParsedInvoice :=
  match inv.file with
  | none => Except.error "没有可解析的文件"
  | some f =>
    match inv.imageBase64 with
    | some _ =>
      (match attemptVision jp visionCall with
       | Except.ok r => Except.ok r
       | Except.error msg =>
         if !isPDF f then
           if strContains msg "400" || strContains msg "参数" then
             Except.error unsupportedImageMsg
           else Except.error msg
         else pdfTextPipeline jp textCall pdfExtract f)
    | none =>
      if !isPDF f then Except.error "没有可解析的图片或PDF"
      else pdfTextPipeline jp textCall pdfExtract f

/-- InvoiceTypeLabels (src/src/types). -/
def invoiceTypeLabel : InvoiceType → String
  | InvoiceType.intercity_transport => "城市间交通"
  | InvoiceType.intracity_transport => "城市内交通"
  | InvoiceType.accommodation => "住宿"
  | InvoiceType.registration_fee => "报名费"

/-- ExportRow (src/src/types). -/
structure ExportRow where
  name : String
  employeeId : String
  invoiceType : String
  amount : Rat
  date : String
  description : String
deriving DecidableEq

/-- The row exportToExcel pushes for one invoice: `invoice.amount || 0`
renders a missing (or zero) amount as 0, `invoice.date || ''` and
`invoice.description || ''` render missing fields as empty strings. -/
def detailRowOf (p : PersonInfo) (inv : InvoiceInfo) : ExportRow :=
  { name := p.name
    employeeId := p.employeeId
    invoiceType := match inv.type with
      | some t => invoiceTypeLabel t
      | none => ""
    amount := inv.amount.getD 0
    date := inv.date.getD ""
    description := inv.description.getD "" }

/-- The guard of the push in exportToExcel:
`invoice.parseStatus === 'success' && invoice.type`. -/
def detailRow? (p : PersonInfo) (inv : InvoiceInfo) : Option ExportRow :=
  match inv.parseStatus, inv.type with
  | ParseStatus.success, some _ => some (detailRowOf p inv)
  | _, _ => none

/-- The inner loop of exportToExcel over one person's invoices. -/
def detailRowsOfPerson (p : PersonInfo) : List ExportRow :=
  p.invoices.filterMap (detailRow? p)

/-- The rows array built by exportToExcel (src/src/utils/export.ts,
lines 15-31): the nested for loops over persons and their invoices. -/
def detailRows : List PersonInfo → List ExportRow
  | [] => []
  | p :: rest => detailRowsOfPerson p ++ detailRows rest

/-- Does an invoice pass the detail-export guard (status success and a
non-null category)? -/
def qualifies (inv : InvoiceInfo) : Bool :=
  match inv.parseStatus, inv.type with
  | ParseStatus.success, some _ => true
  | _, _ => false

/-- One value of the personInvoicesMap of exportSummaryToExcel: the
person's display fields plus the per-category amount lists. -/
structure SummaryEntry where
  name : String
  employeeId : String
  intercity : List Rat
  intracity : List Rat
  accommodation : List Rat
  registration : List Rat
deriving DecidableEq

/-- The invoicesByType list of an entry for a given category. -/
def entryList (e : SummaryEntry) : InvoiceType → List Rat
  | InvoiceType.intercity_transport => e.intercity
  | InvoiceType.intracity_transport => e.intracity
  | InvoiceType.accommodation => e.accommodation
  | InvoiceType.registration_fee => e.registration

/-- `personData.invoicesByType[invoice.type].push(invoice.amount)`. -/
def pushAmount (e : SummaryEntry) : InvoiceType → Rat → SummaryEntry
  | InvoiceType.intercity_transport, a => { e with intercity := e.intercity ++ [a] }
  | InvoiceType.intracity_transport, a => { e with intracity := e.intracity ++ [a] }
  | InvoiceType.accommodation, a => { e with accommodation := e.accommodation ++ [a] }
  | InvoiceType.registration_fee, a => { e with registration := e.registration ++ [a] }

/-- The fresh map value created for a person key. -/
def freshEntry (p : PersonInfo) : SummaryEntry :=
  { name := p.name, employeeId := p.employeeId
    intercity := [], intracity := [], accommodation := [], registration := [] }

/-- The map key of exportSummaryToExcel. -/
def keyOf (p : PersonInfo) : String := p.name ++ "-" ++ p.employeeId

/-- Map.get on the insertion-ordered association list modelling the JS Map
(keys are unique by construction). -/
def lookupEntry : List (String × SummaryEntry) → String → Option SummaryEntry
  | [], _ => none
  | (k, e) :: rest, key => if k = key then some e else lookupEntry rest key

/-- In-place mutation of the entry stored under a key (JS Map values are
mutated through the reference returned by get). -/
def updateFirst : List (String × SummaryEntry) → String → (SummaryEntry → SummaryEntry) →
    List (String × SummaryEntry)
  | [], _, _ => []
  | (k, e) :: rest, key, f =>
    if k = key then (k, f e) :: rest else (k, e) :: updateFirst rest key f

/-- Processing of one invoice inside the per-person loop of
exportSummaryToExcel: `parseStatus === 'success' && invoice.type &&
invoice.amount` guards the push (a null or zero amount is skipped). -/
def addInvoice (m : List (String × SummaryEntry)) (key : String) (inv : InvoiceInfo) :
    List (String × SummaryEntry) :=
  match inv.parseStatus, inv.type, inv.amount with
  | ParseStatus.success, some t, some a =>
    if a = 0 then m else updateFirst m key (fun e => pushAmount e t a)
  | _, _, _ => m

/-- The loop over one person's invoices. -/
def addInvoices (m : List (String × SummaryEntry)) (key : String)
    (invs : List InvoiceInfo) : List (String × SummaryEntry) :=
  invs.foldl (fun m inv => addInvoice m key inv) m

/-- One iteration of the person loop of exportSummaryToExcel: insert a
fresh entry when the key is new, then fold the person's invoices in. -/
def insertPerson (m : List (String × SummaryEntry)) (p : PersonInfo) :
    List (String × SummaryEntry) :=
  let m1 := if (lookupEntry m (keyOf p)).isSome then m else m ++ [(keyOf p, freshEntry p)]
  addInvoices m1 (keyOf p) p.invoices

/-- personInvoicesMap after the grouping loop (src/src/utils/export.ts,
lines 80-108). -/
def buildEntries (persons : List PersonInfo) : List (String × SummaryEntry) :=
  persons.foldl insertPerson []

/-- personDataList: the map values in insertion order. -/
def entriesOf (persons : List PersonInfo) : List SummaryEntry :=
  (buildEntries persons).map (fun kv => kv.2)

/-- The subtotals record of exportSummaryToExcel. -/
structure Subtotals where
  intercity : Rat
  intracity : Rat
  accommodation : Rat
  registration : Rat
deriving DecidableEq

/-- `list.reduce((a, b) => a + b, 0)`. -/
def rsum (l : List Rat) : Rat := l.foldl (· + ·) 0

/-- One iteration of the subtotal accumulation loop. -/
def addEntrySubtotals (s : Subtotals) (e : SummaryEntry) : Subtotals :=
  { intercity := s.intercity + rsum e.intercity
    intracity := s.intracity + rsum e.intracity
    accommodation := s.accommodation + rsum e.accommodation
    registration := s.registration + rsum e.registration }

/-- The subtotals computed over personDataList (src/src/utils/export.ts,
lines 113-124). -/
def computeSubtotals (entries : List SummaryEntry) : Subtotals :=
  entries.foldl addEntrySubtotals { intercity := 0, intracity := 0, accommodation := 0, registration := 0 }

/-- Read one category subtotal. -/
def subtotalFor (s : Subtotals) : InvoiceType → Rat
  | InvoiceType.intercity_transport => s.intercity
  | InvoiceType.intracity_transport => s.intracity
  | InvoiceType.accommodation => s.accommodation
  | InvoiceType.registration_fee => s.registration

/-- `Object.values(subtotals).reduce((a, b) => a + b, 0)`. -/
def grandTotal (s : Subtotals) : Rat :=
  s.intercity + s.intracity + s.accommodation + s.registration

/-- One spreadsheet cell: string, number, or the null/empty cell. -/
inductive SheetCell where
  | str (s : String) : SheetCell
  | num (q : Rat) : SheetCell
  | empty : SheetCell
deriving DecidableEq

/-- One worksheet row. -/
abbrev SheetRow := List SheetCell

/-- TravelInfo (src/src/utils/export.ts). -/
structure TravelInfo where
  competitionName : String
  time : String
  location : String
  teamName : String
  remarks : String
deriving DecidableEq

/-- The header row of the summary sheet. -/
def summaryHeaderRow : SheetRow :=
  [SheetCell.str "姓名", SheetCell.str "学号", SheetCell.str "城市间交通费",
   SheetCell.str "住宿费", SheetCell.str "市内交通费", SheetCell.str "报名费"]

/-- One amount row of the summary sheet: a six-cell row with the name and
identifier only on the person's first row, and the amount written at the
category's column index (`row[colIndex] = amount`). -/
def amountRow (first : Bool) (e : SummaryEntry) (col : Nat) (a : Rat) : SheetRow :=
  ([if first then SheetCell.str e.name else SheetCell.empty,
    if first then SheetCell.str e.employeeId else SheetCell.empty,
    SheetCell.empty, SheetCell.empty, SheetCell.empty, SheetCell.empty]).set col (SheetCell.num a)

/-- The rows of one personDataList entry, in the fixed column order
intercity (col 2), accommodation (col 3), intracity (col 4), registration
(col 5); a person with no pushed amounts still gets one name row. -/
def entryRows (e : SummaryEntry) : List SheetRow :=
  let cells : List (Nat × Rat) :=
    e.intercity.map (fun a => (2, a)) ++ e.accommodation.map (fun a => (3, a))
      ++ e.intracity.map (fun a => (4, a)) ++ e.registration.map (fun a => (5, a))
  match cells with
  | [] => [[SheetCell.str e.name, SheetCell.str e.employeeId,
            SheetCell.empty, SheetCell.empty, SheetCell.empty, SheetCell.empty]]
  | (c, a) :: rest =>
    amountRow true e c a :: rest.map (fun ca => amountRow false e ca.1 ca.2)

/-- All data rows of the summary sheet. -/
def dataRowsOf : List SummaryEntry → List SheetRow
  | [] => []
  | e :: rest => entryRows e ++ dataRowsOf rest

/-- `x || null` on a numeric subtotal cell: a zero subtotal renders as the
null cell. -/
def numOrNull (q : Rat) : SheetCell :=
  if q = 0 then SheetCell.empty else SheetCell.num q

/-- The subtotal row (src/src/utils/export.ts, lines 172-182): label, the
four category sums (zero rendered null) in column order intercity,
accommodation, intracity, registration, a spacer, the grand-total label and
the grand total. -/
def subtotalRow (s : Subtotals) : SheetRow :=
  [SheetCell.str "小计", SheetCell.empty, numOrNull s.intercity,
   numOrNull s.accommodation, numOrNull s.intracity, numOrNull s.registration,
   SheetCell.empty, SheetCell.str "报销总额", SheetCell.num (grandTotal s)]

/-- The trailing trip-metadata lines (src/src/utils/export.ts,
lines 188-192): five single-cell rows. -/
def metadataRows (t : TravelInfo) : List SheetRow :=
  [[SheetCell.str ("竞赛名称：" ++ t.competitionName)],
   [SheetCell.str ("时间：" ++ t.time)],
   [SheetCell.str ("地点：" ++ t.location)],
   [SheetCell.str ("队伍名称：" ++ t.teamName)],
   [SheetCell.str ("备注（问题反馈等）" ++ (if t.remarks = "" then "" else "：" ++ t.remarks))]]

/-- `while (worksheetData.length < n) worksheetData.push([])`. -/
def padWhile (n : Nat) (rows : List SheetRow) : List SheetRow :=
  if rows.length < n then padWhile n (rows ++ [([] : SheetRow)]) else rows
termination_by n - rows.length
decreasing_by simp [List.length_append]; omega

/-- worksheetData of exportSummaryToExcel (src/src/utils/export.ts,
lines 129-192): header, per-invoice data rows, padding to at least six
total rows, the subtotal row, one empty row, and the metadata lines. -/
def summarySheet (persons : List PersonInfo) (t : TravelInfo) : List SheetRow :=
  let entries := entriesOf persons
  padWhile 6 (summaryHeaderRow :: dataRowsOf entries)
    ++ subtotalRow (computeSubtotals entries) :: ([] : SheetRow) :: metadataRows t

/-- The invoice image sent to persistence: `{ ...inv, file: undefined }`
(src/src/App.tsx, lines 63-72). -/
def stripInvoiceForStorage (inv : InvoiceInfo) : InvoiceInfo :=
  { inv with file := none }

/-- dataToSave of the persistence effect in src/src/App.tsx: every
invoice's file handle is cleared before the collection is serialized to
localStorage. -/
def stripForStorage (persons : List PersonInfo) : List PersonInfo :=
  persons.map fun p => { p with invoices := p.invoices.map stripInvoiceForStorage }

/-- A JSON.parse oracle that is never consulted (used by closed witness and
counterexample statements whose control flow never reaches JSON.parse). -/
def jp0 : String → Except String JsonVal := fun _ => Except.error "JSON.parse unused"

/-- A raster-image file handle for concrete instances. -/
def fileJpg : FileRec := { name := "photo.jpg", mime := "image/jpeg" }

/-- A pending invoice holding a raster payload for a .jpg upload. -/
def invJpg : InvoiceInfo :=
  { id := "inv-1", fileName := "photo.jpg", type := none, amount := none, date := none,
    description := none, rawText := none, file := some fileJpg, imageBase64 := some "AAAA",
    parseStatus := ParseStatus.pending, errorMessage := none }

/-- A successful accommodation invoice whose amount is unknown (null). -/
def invZero : InvoiceInfo :=
  { id := "inv-2", fileName := "hotel.pdf", type := some InvoiceType.accommodation,
    amount := none, date := none, description := none, rawText := none, file := none,
    imageBase64 := none, parseStatus := ParseStatus.success, errorMessage := none }

/-- A person with no invoices. -/
def personA : PersonInfo := { id := "p-1", name := "张三", employeeId := "S1", invoices := [] }

/-- Concrete trip metadata. -/
def travelA : TravelInfo :=
  { competitionName := "A", time := "B", location := "C", teamName := "D", remarks := "" }

/-- An invoice whose raster payload (base64 source bytes) is present. -/
def invWithBytes : InvoiceInfo :=
  { id := "inv-3", fileName := "r.png", type := none, amount := none, date := none,
    description := none, rawText := none, file := some { name := "r.png", mime := "image/png" },
    imageBase64 := some "QUJD", parseStatus := ParseStatus.pending, errorMessage := none }

/-- A person owning invWithBytes. -/
def personWithBytes : PersonInfo :=
  { id := "p-2", name := "李四", employeeId := "S2", invoices := [invWithBytes] }

/-- The amount an invoice contributes to the subtotal of category `t`
under the claim reading: a successful invoice of that category contributes
its amount (an unknown amount counting as 0), everything else contributes
nothing. -/
def invoiceContribution (t : InvoiceType) (inv : InvoiceInfo) : Rat :=
  if qualifies inv && inv.type == some t then inv.amount.getD 0 else 0

/-- Sum of the contributions of a list of invoices to category `t`. -/
def catSum (t : InvoiceType) : List InvoiceInfo → Rat
  | [] => 0
  | inv :: rest => invoiceContribution t inv + catSum t rest

/-- Sum of the contributions of every invoice of every person to
category `t`. -/
def categoryTotal (t : InvoiceType) : List PersonInfo → Rat
  | [] => 0
  | p :: rest => catSum t p.invoices + categoryTotal t rest

/-- Sum over the map entries of the already-pushed amounts of
category `t` (proof-side accounting of personInvoicesMap). -/
def mTotal (t : InvoiceType) : List (String × SummaryEntry) → Rat
  | [] => 0
  | (_, e) :: rest => rsum (entryList e t) + mTotal t rest

/-- Sum over the entry list of the pushed amounts of category `t`. -/
def esumT (t : InvoiceType) : List SummaryEntry → Rat
  | [] => 0
  | e :: rest => rsum (entryList e t) + esumT t rest

lemma parseFloatStr_true : parseFloatStr "true" = none := by
  have h : parseFloatParts "true" = none := by decide
  simp [parseFloatStr, h]

lemma parseFloatStr_false : parseFloatStr "false" = none := by
  have h : parseFloatParts "false" = none := by decide
  simp [parseFloatStr, h]

lemma parseFloatStr_null : parseFloatStr "null" = none := by
  have h : parseFloatParts "null" = none := by decide
  simp [parseFloatStr, h]

lemma parseFloatStr_object : parseFloatStr "[object Object]" = none := by
  have h : parseFloatParts "[object Object]" = none := by decide
  simp [parseFloatStr, h]

/-- C5: for a parsed object whose type field is one of the four valid
category strings the Response Parser returns exactly that string, and for
any other value of the field (including absence) it returns null
(unknown). -/
theorem response_parser_type_validation (p : JsonVal) :
    (∀ s, s ∈ validTypes → jget p "type" = some (JsonVal.str s) → coerceType p = some s)
    ∧ (∀ v, jget p "type" = some v → (∀ s, s ∈ validTypes → v ≠ JsonVal.str s) →
        coerceType p = none)
    ∧ (jget p "type" = none → coerceType p = none) := by
  refine ⟨fun s hs hv => ?_, fun v hv hne => ?_, fun hv => ?_⟩
  · simp [coerceType, hv, hs]
  · cases v with
    | str s =>
      by_cases hc : s ∈ validTypes
      · exact absurd rfl (hne s hc)
      · simp [coerceType, hv, hc]
    | null => simp [coerceType, hv]
    | bool b => simp [coerceType, hv]
    | num q => simp [coerceType, hv]
    | arr l => simp [coerceType, hv]
    | obj fs => simp [coerceType, hv]
  · simp [coerceType, hv]

/-- C5 witness: the valid value accommodation passes through, an invalid
string and an absent field become null. -/
theorem response_parser_type_validation_witness :
    coerceType (JsonVal.obj [("type", JsonVal.str "accommodation")]) = some "accommodation"
    ∧ coerceType (JsonVal.obj [("type", JsonVal.str "lunch")]) = none
    ∧ coerceType (JsonVal.obj []) = none := by
  refine ⟨?_, ?_, ?_⟩
  · exact (response_parser_type_validation _).1 "accommodation" (by simp [validTypes]) rfl
  · refine (response_parser_type_validation _).2.1 (JsonVal.str "lunch") rfl ?_
    intro s hs
    simp [validTypes] at hs
    rcases hs with rfl | rfl | rfl | rfl <;> simp
  · exact (response_parser_type_validation _).2.2 rfl

/-- C2 counterexample: the numeric string "0" denotes the number 0, yet the
Response Parser yields null (unknown) for it, because `parseFloat(x) || null`
collapses the falsy result 0; and the non-numeric string "12abc" yields 12
rather than unknown (parseFloat takes the longest numeric prefix).  Both
contradict the claim as stated. -/
theorem response_parser_amount_counterexample :
    coerceAmount (JsonVal.obj [("amount", JsonVal.str "0")]) = none
    ∧ parseFloatStr "0" = some 0
    ∧ coerceAmount (JsonVal.obj [("amount", JsonVal.str "12abc")]) = some 12 := by
  have h0 : parseFloatParts "0" = some { neg := false, ip := 0, fp := 0, flen := 0, expo := 0 } := by
    decide
  have h12 : parseFloatParts "12abc"
      = some { neg := false, ip := 12, fp := 0, flen := 0, expo := 0 } := by decide
  refine ⟨?_, ?_, ?_⟩
  · simp [coerceAmount, jget, lookupField, parseFloatOfVal, parseFloatStr, h0, ratOfParts]
  · simp [parseFloatStr, h0, ratOfParts]
  · simp [coerceAmount, jget, lookupField, parseFloatOfVal, parseFloatStr, h12, ratOfParts]

/-- C2 amended: a native number amount is returned unchanged; a string
amount is run through parseFloat, and the parsed value is returned exactly
when it is a nonzero number, while a NaN or zero parse result (and any
other non-number value, or absence) yields null (unknown). -/
theorem response_parser_amount_amended (p : JsonVal) :
    (∀ q, jget p "amount" = some (JsonVal.num q) → coerceAmount p = some q)
    ∧ (∀ s q, jget p "amount" = some (JsonVal.str s) → parseFloatStr s = some q → q ≠ 0 →
        coerceAmount p = some q)
    ∧ (∀ s, jget p "amount" = some (JsonVal.str s) →
        (parseFloatStr s = none ∨ parseFloatStr s = some 0) → coerceAmount p = none)
    ∧ (jget p "amount" = none → coerceAmount p = none)
    ∧ (jget p "amount" = some JsonVal.null → coerceAmount p = none)
    ∧ (∀ b, jget p "amount" = some (JsonVal.bool b) → coerceAmount p = none)
    ∧ (∀ fs, jget p "amount" = some (JsonVal.obj fs) → coerceAmount p = none) := by
  refine ⟨fun q hv => ?_, fun s q hv hps hq => ?_, fun s hv hps => ?_, fun hv => ?_,
    fun hv => ?_, fun b hv => ?_, fun fs hv => ?_⟩
  · simp [coerceAmount, hv]
  · simp [coerceAmount, hv, parseFloatOfVal, hps, hq]
  · rcases hps with hps | hps <;> simp [coerceAmount, hv, parseFloatOfVal, hps]
  · simp [coerceAmount, hv, parseFloatOfVal]
  · simp [coerceAmount, hv, parseFloatOfVal, parseFloatStr_null]
  · cases b <;>
      simp [coerceAmount, hv, parseFloatOfVal, parseFloatStr_true, parseFloatStr_false]
  · simp [coerceAmount, hv, parseFloatOfVal, parseFloatStr_object]

/-- C2 witness: the amount 553.5, given as a native number or as the
string "553.5", comes out as the number 553.5. -/
theorem response_parser_amount_amended_witness :
    coerceAmount (JsonVal.obj [("amount", JsonVal.num (553.5 : Rat))]) = some (553.5 : Rat)
    ∧ coerceAmount (JsonVal.obj [("amount", JsonVal.str "553.5")]) = some (553.5 : Rat) := by
  constructor
  · exact (response_parser_amount_amended _).1 (553.5 : Rat) rfl
  · refine (response_parser_amount_amended _).2.1 "553.5" (553.5 : Rat) rfl ?_ (by norm_num)
    have h : parseFloatParts "553.5"
        = some { neg := false, ip := 553, fp := 5, flen := 1, expo := 0 } := by decide
    simp [parseFloatStr, h, ratOfParts]
    norm_num

lemma asStr_some_str (s : String) : asStr (some (JsonVal.str s)) = some s := rfl

lemma selectContent_of_falsy_chain (resp : JsonVal)
    (h : ((chain1 resp).all fun v => !jsTruthy v) = true) :
    selectContent resp = selectRest resp := by
  unfold selectContent
  cases hch : chain1 resp with
  | none => rfl
  | some v =>
    rw [hch] at h
    simp only [Option.all_some, Bool.not_eq_true'] at h
    simp [h]

/-- C3 counterexample: a response whose top-level content field is the
empty string and whose result field is the non-empty string "ok".  The
claim says the empty match must not stop the search, so "ok" should be
extracted; the code assigns the empty string at the content shape, stops,
and fails with the unsupported-format error. -/
theorem text_mode_shape_counterexample :
    selectContent (JsonVal.obj [("content", JsonVal.str ""), ("result", JsonVal.str "ok")])
      = some (JsonVal.str "")
    ∧ parseWithTextMode jp0 (JsonVal.obj [("content", JsonVal.str ""), ("result", JsonVal.str "ok")])
      = Except.error unsupportedFormatMsg := by
  constructor <;> rfl

/-- C3 amended: the four response shapes are checked in priority order, but
only the first (choices[0].message.content) is skipped when present and
falsy; each of the remaining three shapes is selected whenever its field is
a string, even the empty string, and an empty selection fails with the
descriptive unsupported-format error without consulting later shapes (as
does the case in which no shape matches). -/
theorem text_mode_shape_ladder_amended (resp : JsonVal) (jp : String → Except String JsonVal) :
    (∀ s, chain1 resp = some (JsonVal.str s) → s ≠ "" →
      selectContent resp = some (JsonVal.str s)
      ∧ parseWithTextMode jp resp = parseJSONResponse jp s)
    ∧ (((chain1 resp).all fun v => !jsTruthy v) = true →
        (∀ s, jget resp "content" = some (JsonVal.str s) →
          selectContent resp = some (JsonVal.str s)
          ∧ (s = "" → parseWithTextMode jp resp = Except.error unsupportedFormatMsg)
          ∧ (s ≠ "" → parseWithTextMode jp resp = parseJSONResponse jp s))
        ∧ (asStr (jget resp "content") = none →
            (∀ s, jget resp "result" = some (JsonVal.str s) →
              selectContent resp = some (JsonVal.str s)
              ∧ (s = "" → parseWithTextMode jp resp = Except.error unsupportedFormatMsg)
              ∧ (s ≠ "" → parseWithTextMode jp resp = parseJSONResponse jp s))
            ∧ (asStr (jget resp "result") = none →
                (∀ s, ((jget resp "result").bind fun r => jget r "content")
                      = some (JsonVal.str s) →
                  selectContent resp = some (JsonVal.str s)
                  ∧ (s = "" → parseWithTextMode jp resp = Except.error unsupportedFormatMsg)
                  ∧ (s ≠ "" → parseWithTextMode jp resp = parseJSONResponse jp s))
                ∧ (asStr ((jget resp "result").bind fun r => jget r "content") = none →
                    parseWithTextMode jp resp = Except.error unsupportedFormatMsg)))) := by
  refine ⟨fun s h1 hne => ?_,
    fun h0 => ⟨fun s h1 => ?_, fun hc => ⟨fun s h1 => ?_, fun hr => ⟨fun s h1 => ?_, fun hrc => ?_⟩⟩⟩⟩
  · have hsel : selectContent resp = some (JsonVal.str s) := by
      simp [selectContent, h1, jsTruthy, hne]
    exact ⟨hsel, by simp [parseWithTextMode, hsel, hne]⟩
  · have hsel : selectContent resp = some (JsonVal.str s) := by
      rw [selectContent_of_falsy_chain resp h0]
      simp [selectRest, h1, asStr_some_str]
    refine ⟨hsel, fun hse => ?_, fun hne => ?_⟩
    · subst hse; simp [parseWithTextMode, hsel]
    · simp [parseWithTextMode, hsel, hne]
  · have hsel : selectContent resp = some (JsonVal.str s) := by
      rw [selectContent_of_falsy_chain resp h0]
      simp [selectRest, hc, h1, asStr_some_str]
    refine ⟨hsel, fun hse => ?_, fun hne => ?_⟩
    · subst hse; simp [parseWithTextMode, hsel]
    · simp [parseWithTextMode, hsel, hne]
  · have hsel : selectContent resp = some (JsonVal.str s) := by
      rw [selectContent_of_falsy_chain resp h0]
      simp [selectRest, hc, hr, h1, asStr_some_str]
    refine ⟨hsel, fun hse => ?_, fun hne => ?_⟩
    · subst hse; simp [parseWithTextMode, hsel]
    · simp [parseWithTextMode, hsel, hne]
  · have hsel : selectContent resp = none := by
      rw [selectContent_of_falsy_chain resp h0]
      simp [selectRest, hc, hr, hrc]
    simp [parseWithTextMode, hsel]

/-- C3 witness: a response carrying only a top-level result string is
accepted through the third shape. -/
theorem text_mode_shape_ladder_amended_witness :
    selectContent (JsonVal.obj [("result", JsonVal.str "hi")]) = some (JsonVal.str "hi")
    ∧ parseWithTextMode jp0 (JsonVal.obj [("result", JsonVal.str "hi")])
      = parseJSONResponse jp0 "hi" := by
  have h := ((text_mode_shape_ladder_amended (JsonVal.obj [("result", JsonVal.str "hi")]) jp0).2
    rfl).2 rfl |>.1 "hi" rfl
  exact ⟨h.1, h.2.2 (by simp)⟩

/-- C9 counterexample: an invoice whose raster payload (the base64-encoded
source bytes "QUJD") is present keeps exactly those bytes in the persisted
collection — the embedded source bytes are not stripped. -/
theorem persistence_keeps_image_bytes :
    (stripForStorage [personWithBytes]).map (fun p => p.invoices.map fun inv => inv.imageBase64)
      = [[some "QUJD"]] := by
  rfl

/-- C9 amended: persistence clears only the File handle of every invoice;
the person structure and every other invoice field — the base64 source
bytes included — are persisted unchanged. -/
theorem persistence_strips_only_file_handle (persons : List PersonInfo) (i j : Nat) :
    (((stripForStorage persons)[i]?).bind fun p => p.invoices[j]?).map InvoiceInfo.id
      = ((persons[i]?).bind fun p => p.invoices[j]?).map InvoiceInfo.id
    ∧ (((stripForStorage persons)[i]?).bind fun p => p.invoices[j]?).map InvoiceInfo.fileName
      = ((persons[i]?).bind fun p => p.invoices[j]?).map InvoiceInfo.fileName
    ∧ (((stripForStorage persons)[i]?).bind fun p => p.invoices[j]?).map InvoiceInfo.type
      = ((persons[i]?).bind fun p => p.invoices[j]?).map InvoiceInfo.type
    ∧ (((stripForStorage persons)[i]?).bind fun p => p.invoices[j]?).map InvoiceInfo.amount
      = ((persons[i]?).bind fun p => p.invoices[j]?).map InvoiceInfo.amount
    ∧ (((stripForStorage persons)[i]?).bind fun p => p.invoices[j]?).map InvoiceInfo.date
      = ((persons[i]?).bind fun p => p.invoices[j]?).map InvoiceInfo.date
    ∧ (((stripForStorage persons)[i]?).bind fun p => p.invoices[j]?).map InvoiceInfo.description
      = ((persons[i]?).bind fun p => p.invoices[j]?).map InvoiceInfo.description
    ∧ (((stripForStorage persons)[i]?).bind fun p => p.invoices[j]?).map InvoiceInfo.rawText
      = ((persons[i]?).bind fun p => p.invoices[j]?).map InvoiceInfo.rawText
    ∧ (((stripForStorage persons)[i]?).bind fun p => p.invoices[j]?).map InvoiceInfo.imageBase64
      = ((persons[i]?).bind fun p => p.invoices[j]?).map InvoiceInfo.imageBase64
    ∧ (((stripForStorage persons)[i]?).bind fun p => p.invoices[j]?).map InvoiceInfo.parseStatus
      = ((persons[i]?).bind fun p => p.invoices[j]?).map InvoiceInfo.parseStatus
    ∧ (((stripForStorage persons)[i]?).bind fun p => p.invoices[j]?).map InvoiceInfo.errorMessage
      = ((persons[i]?).bind fun p => p.invoices[j]?).map InvoiceInfo.errorMessage
    ∧ (((stripForStorage persons)[i]?).bind fun p => p.invoices[j]?).map InvoiceInfo.file
      = ((persons[i]?).bind fun p => p.invoices[j]?).map (fun _ => (none : Option FileRec))
    ∧ ((stripForStorage persons)[i]?).map PersonInfo.name
      = (persons[i]?).map PersonInfo.name
    ∧ ((stripForStorage persons)[i]?).map PersonInfo.employeeId
      = (persons[i]?).map PersonInfo.employeeId
    ∧ ((stripForStorage persons)[i]?).map PersonInfo.id
      = (persons[i]?).map PersonInfo.id
    ∧ ((stripForStorage persons)[i]?).map (fun p => p.invoices.length)
      = (persons[i]?).map (fun p => p.invoices.length)
    ∧ (stripForStorage persons).length = persons.length := by
  have hget : (stripForStorage persons)[i]?
      = (persons[i]?).map fun p => { p with invoices := p.invoices.map stripInvoiceForStorage } := by
    simp [stripForStorage, List.getElem?_map]
  cases hp : persons[i]? with
  | none => simp [hget, hp, stripForStorage]
  | some p =>
    cases hv : p.invoices[j]? with
    | none => simp [hget, hp, hv, List.getElem?_map, stripForStorage]
    | some inv =>
      simp [hget, hp, hv, List.getElem?_map, stripForStorage, stripInvoiceForStorage]

lemma fromFirstChar_eq_none {t : Char} {cs : List Char} :
    fromFirstChar t cs = none ↔ t ∉ cs := by
  induction cs with
  | nil => simp [fromFirstChar]
  | cons c rest ih =>
    by_cases hc : c = t
    · subst hc; simp [fromFirstChar]
    · simp only [fromFirstChar, hc, if_false, ih, List.mem_cons]
      constructor
      · intro h hmem
        rcases hmem with h1 | h2
        · exact hc h1.symm
        · exact h h2
      · intro h hm
        exact h (Or.inr hm)

lemma fromFirstChar_append {t : Char} {a : List Char} (b : List Char) (h : t ∉ a) :
    fromFirstChar t (a ++ t :: b) = some (t :: b) := by
  induction a with
  | nil => simp [fromFirstChar]
  | cons x a' ih =>
    have hx : ¬ x = t := fun hxt => h (by simp [hxt])
    simp only [List.cons_append, fromFirstChar, hx, if_false]
    exact ih fun hm => h (List.mem_cons_of_mem _ hm)

lemma fromFirstChar_some {t : Char} {cs r : List Char} (h : fromFirstChar t cs = some r) :
    ∃ a b, cs = a ++ t :: b ∧ t ∉ a ∧ r = t :: b := by
  induction cs with
  | nil => simp [fromFirstChar] at h
  | cons c rest ih =>
    by_cases hc : c = t
    · subst hc
      simp [fromFirstChar] at h
      exact ⟨[], rest, rfl, by simp, h.symm⟩
    · simp only [fromFirstChar, hc, if_false] at h
      obtain ⟨a, b, hcs, hna, hr⟩ := ih h
      refine ⟨c :: a, b, by simp [hcs], ?_, hr⟩
      intro hm
      rcases List.mem_cons.mp hm with h1 | h2
      · exact hc h1.symm
      · exact hna h2

lemma closeBrace_mem_of_decomp :
    ∀ (a0 : List Char) (b0 a b c : List Char),
      a0 ++ openBrace :: b0 = a ++ openBrace :: (b ++ closeBrace :: c) →
      openBrace ∉ a0 → closeBrace ∈ openBrace :: b0 := by
  intro a0
  induction a0 with
  | nil =>
    intro b0 a b c heq _
    simp only [List.nil_append] at heq
    rw [heq]
    simp
  | cons x a0' ih =>
    intro b0 a b c heq hnot
    cases a with
    | nil =>
      simp only [List.nil_append, List.cons_append, List.cons.injEq] at heq
      have : openBrace ∈ x :: a0' := by rw [heq.1]; exact List.mem_cons_self _ _
      exact absurd this hnot
    | cons y a' =>
      simp only [List.cons_append, List.cons.injEq] at heq
      exact ih b0 a' b c heq.2 fun hm => hnot (List.mem_cons_of_mem _ hm)

lemma extractJsonSpanL_of_decomp {a b c : List Char}
    (ha : openBrace ∉ a) (hc : closeBrace ∉ c) :
    extractJsonSpanL (a ++ openBrace :: (b ++ closeBrace :: c))
      = some (openBrace :: (b ++ [closeBrace])) := by
  have hrev : (openBrace :: (b ++ closeBrace :: c)).reverse
      = c.reverse ++ closeBrace :: (b.reverse ++ [openBrace]) := by
    simp [List.reverse_cons, List.reverse_append, List.append_assoc]
  have h2 : closeBrace ∉ c.reverse := by simp [hc]
  simp only [extractJsonSpanL, fromFirstChar_append _ ha, hrev, fromFirstChar_append _ h2]
  simp [List.reverse_cons, List.reverse_append]

lemma extractJsonSpanL_eq_none_iff (cs : List Char) :
    extractJsonSpanL cs = none
      ↔ ¬ ∃ a b c, cs = a ++ openBrace :: (b ++ closeBrace :: c) := by
  constructor
  · intro hnone hex
    obtain ⟨a, b, c, hcs⟩ := hex
    rcases h1 : fromFirstChar openBrace cs with _ | tail
    · have : openBrace ∉ cs := fromFirstChar_eq_none.mp h1
      exact this (by rw [hcs]; simp)
    · obtain ⟨a0, b0, hcs0, hna0, htail⟩ := fromFirstChar_some h1
      have hmem : closeBrace ∈ tail := by
        rw [htail]
        exact closeBrace_mem_of_decomp a0 b0 a b c (by rw [← hcs0, hcs]) hna0
      rcases h2 : fromFirstChar closeBrace tail.reverse with _ | rev
      · exact (fromFirstChar_eq_none.mp h2) (by simp [hmem])
      · simp only [extractJsonSpanL, h1, h2] at hnone
        exact Option.noConfusion hnone
  · intro hno
    rcases hext : extractJsonSpanL cs with _ | span
    · rfl
    · exfalso
      apply hno
      rcases h1 : fromFirstChar openBrace cs with _ | tail
      · simp only [extractJsonSpanL, h1] at hext
        exact Option.noConfusion hext
      · obtain ⟨a0, b0, hcs0, hna0, htail⟩ := fromFirstChar_some h1
        rcases h2 : fromFirstChar closeBrace tail.reverse with _ | rev
        · simp only [extractJsonSpanL, h1, h2] at hext
          exact Option.noConfusion hext
        · obtain ⟨y, x, hrev, _, _⟩ := fromFirstChar_some h2
          have htail2 : tail = x.reverse ++ closeBrace :: y.reverse := by
            rw [← List.reverse_reverse tail, hrev]
            simp [List.reverse_append]
          rw [htail] at htail2
          rcases hxr : x.reverse with _ | ⟨z, m⟩
          · rw [hxr] at htail2
            simp only [List.nil_append, List.cons.injEq] at htail2
            exact absurd htail2.1 (by decide)
          · rw [hxr] at htail2
            simp only [List.cons_append, List.cons.injEq] at htail2
            exact ⟨a0, m, y.reverse, by rw [hcs0, htail2.2]⟩

/-- C4: the Response Parser parses exactly the substring running from the
first opening brace to the last closing brace of the text, ignoring
surrounding prose (a JSON.parse failure on that span is propagated, a
success is validated into the field record); when the text has no opening
brace followed later by a closing brace, it fails with the json-not-found
error. -/
theorem response_parser_brace_span (jp : String → Except String JsonVal) (content : String) :
    (∀ a b c, content.toList = a ++ openBrace :: (b ++ closeBrace :: c) → openBrace ∉ a →
      closeBrace ∉ c →
      extractJsonSpanL content.toList = some (openBrace :: (b ++ [closeBrace]))
      ∧ (∀ e, jp (String.mk (openBrace :: (b ++ [closeBrace]))) = Except.error e →
          parseJSONResponse jp content = Except.error e)
      ∧ (∀ parsed, jp (String.mk (openBrace :: (b ++ [closeBrace]))) = Except.ok parsed →
          parseJSONResponse jp content = Except.ok
            { type := coerceType parsed, amount := coerceAmount parsed,
              date := coerceTruthy (jget parsed "date"),
              description := coerceTruthy (jget parsed "description"),
              rawText := content }))
    ∧ (extractJsonSpanL content.toList = none ↔
        ¬ ∃ a b c, content.toList = a ++ openBrace :: (b ++ closeBrace :: c))
    ∧ (extractJsonSpanL content.toList = none →
        parseJSONResponse jp content
          = Except.error ("无法从返回内容中提取JSON: " ++ content.take 200)) := by
  refine ⟨fun a b c hdec ha hc => ?_, extractJsonSpanL_eq_none_iff _, fun hnone => ?_⟩
  · have hext : extractJsonSpanL content.toList = some (openBrace :: (b ++ [closeBrace])) := by
      rw [hdec]; exact extractJsonSpanL_of_decomp ha hc
    have hext2 : extractJsonSpanL content.data = some (openBrace :: (b ++ [closeBrace])) := hext
    refine ⟨hext, fun e he => ?_, fun parsed hp => ?_⟩
    · simp [parseJSONResponse, hext, hext2, he]
    · simp [parseJSONResponse, hext, hext2, hp]
  · have hnone2 : extractJsonSpanL content.data = none := hnone
    simp [parseJSONResponse, hnone, hnone2]

/-- C4 witness: in the text a\x7bz\x7db the parser isolates exactly the
span \x7bz\x7d and hands it to JSON.parse, whose failure is propagated. -/
theorem response_parser_brace_span_witness :
    extractJsonSpanL (String.toList "a\x7bz\x7db")
      = some (openBrace :: (String.toList "z" ++ [closeBrace]))
    ∧ parseJSONResponse jp0 "a\x7bz\x7db" = Except.error "JSON.parse unused" := by
  have h := (response_parser_brace_span jp0 "a\x7bz\x7db").1
    (String.toList "a") (String.toList "z") (String.toList "b")
    (by decide) (by decide) (by decide)
  exact ⟨h.1, h.2.1 "JSON.parse unused" rfl⟩

/-- C1: for an invoice with a raster payload the pipeline attempts vision
mode first and returns its successful result; when the attempt fails on a
PDF it falls back to text extraction followed by text-mode structuring;
when it fails on a non-PDF the failure is surfaced, with messages
containing 400 or 参数 reclassified into the distinct
supply-a-PDF-or-vision-model message and all other failures rethrown
verbatim. -/
theorem vision_first_with_pdf_fallback (jp : String → Except String JsonVal)
    (vc tc : Except String JsonVal) (pe : Except String String)
    (inv : InvoiceInfo) (f : FileRec) (b : String)
    (hf : inv.file = some f) (hb : inv.imageBase64 = some b) :
    (∀ r, attemptVision jp vc = Except.ok r →
      parseInvoiceWithLLM jp vc tc pe inv = Except.ok r)
    ∧ (∀ msg text resp, attemptVision jp vc = Except.error msg → isPDF f = true →
        pe = Except.ok text → text ≠ "" → tc = Except.ok resp →
        parseInvoiceWithLLM jp vc tc pe inv = parseWithTextMode jp resp)
    ∧ (∀ msg, attemptVision jp vc = Except.error msg → isPDF f = false →
        ((strContains msg "400" || strContains msg "参数") = true →
          parseInvoiceWithLLM jp vc tc pe inv = Except.error unsupportedImageMsg)
        ∧ ((strContains msg "400" || strContains msg "参数") = false →
          parseInvoiceWithLLM jp vc tc pe inv = Except.error msg)) := by
  refine ⟨fun r hv => ?_, fun msg text resp hv hpdf hpe htext htc => ?_,
    fun msg hv hnpdf => ?_⟩
  · simp [parseInvoiceWithLLM, hf, hb, hv]
  · simp [parseInvoiceWithLLM, hf, hb, hv, hpdf, pdfTextPipeline, hpe, htext, htc]
  · constructor <;> intro hcl <;> simp [parseInvoiceWithLLM, hf, hb, hv, hnpdf, hcl]

/-- C1 witness: a .jpg invoice whose vision attempt fails with an
HTTP 400 transport message is reclassified into the unsupported-image
message. -/
theorem vision_first_with_pdf_fallback_witness :
    parseInvoiceWithLLM jp0 (Except.error "HTTP 400") (Except.error "unused")
      (Except.error "unused") invJpg = Except.error unsupportedImageMsg := by
  have h := (vision_first_with_pdf_fallback jp0 (Except.error "HTTP 400")
    (Except.error "unused") (Except.error "unused") invJpg fileJpg "AAAA" rfl rfl).2.2
    "HTTP 400" rfl (by decide)
  exact h.1 (by decide)

lemma filterMap_detailRow (p : PersonInfo) (invs : List InvoiceInfo) :
    invs.filterMap (detailRow? p) = (invs.filter qualifies).map (detailRowOf p) := by
  induction invs with
  | nil => simp
  | cons inv rest ih =>
    cases hs : inv.parseStatus <;> cases ht : inv.type <;>
      simp [detailRow?, qualifies, hs, ht, ih, List.filterMap_cons, List.filter_cons]

/-- C6: the detail export produces exactly one row per invoice whose
status is success and whose category is non-null — the row list is the
per-person map of the qualifying invoices, and its length is the number of
qualifying invoices; an invoice failing the guard never produces a row. -/
theorem detail_export_success_rows (persons : List PersonInfo) :
    detailRows persons
      = (persons.map fun p => (p.invoices.filter qualifies).map (detailRowOf p)).flatten
    ∧ (detailRows persons).length
      = ((persons.map fun p => p.invoices).flatten.filter qualifies).length := by
  constructor
  · induction persons with
    | nil => simp [detailRows]
    | cons p rest ih =>
      simp [detailRows, detailRowsOfPerson, filterMap_detailRow, ih]
  · induction persons with
    | nil => simp [detailRows]
    | cons p rest ih =>
      simp [detailRows, detailRowsOfPerson, filterMap_detailRow, ih,
        List.filter_append, List.length_append]

lemma rsum_append_singleton (l : List Rat) (a : Rat) : rsum (l ++ [a]) = rsum l + a := by
  simp [rsum, List.foldl_append]

lemma entryList_pushAmount (e : SummaryEntry) (t t' : InvoiceType) (a : Rat) :
    rsum (entryList (pushAmount e t' a) t)
      = rsum (entryList e t) + (if t = t' then a else 0) := by
  cases t <;> cases t' <;> simp [entryList, pushAmount, rsum_append_singleton]

lemma mTotal_updateFirst (m : List (String × SummaryEntry)) (key : String)
    (t t' : InvoiceType) (a : Rat) (h : (lookupEntry m key).isSome) :
    mTotal t (updateFirst m key fun e => pushAmount e t' a)
      = mTotal t m + (if t = t' then a else 0) := by
  induction m with
  | nil => simp [lookupEntry] at h
  | cons kv rest ih =>
    obtain ⟨k, e⟩ := kv
    by_cases hk : k = key
    · simp only [updateFirst, hk, if_true, mTotal, entryList_pushAmount]
      ring
    · simp only [lookupEntry, hk, if_false] at h
      simp only [updateFirst, hk, if_false, mTotal, ih h]
      ring

lemma lookupEntry_updateFirst_isSome (m : List (String × SummaryEntry)) (key key' : String)
    (f : SummaryEntry → SummaryEntry) :
    (lookupEntry (updateFirst m key f) key').isSome = (lookupEntry m key').isSome := by
  induction m with
  | nil => rfl
  | cons kv rest ih =>
    obtain ⟨k, e⟩ := kv
    by_cases hk : k = key
    · subst hk
      by_cases hk2 : k = key' <;> simp [updateFirst, lookupEntry, hk2, ih]
    · by_cases hk2 : k = key'
      · subst hk2
        simp [updateFirst, lookupEntry, hk, ih]
      · simp [updateFirst, lookupEntry, hk, hk2, ih]

lemma lookupEntry_addInvoice_isSome (m : List (String × SummaryEntry)) (key key' : String)
    (inv : InvoiceInfo) :
    (lookupEntry (addInvoice m key inv) key').isSome = (lookupEntry m key').isSome := by
  unfold addInvoice
  split
  · split
    · rfl
    · rw [lookupEntry_updateFirst_isSome]
  · rfl

lemma mTotal_addInvoice (m : List (String × SummaryEntry)) (key : String)
    (inv : InvoiceInfo) (t : InvoiceType) (h : (lookupEntry m key).isSome) :
    mTotal t (addInvoice m key inv) = mTotal t m + invoiceContribution t inv := by
  cases hs : inv.parseStatus with
  | success =>
    cases hty : inv.type with
    | none => simp [addInvoice, invoiceContribution, qualifies, hs, hty]
    | some t' =>
      cases ham : inv.amount with
      | none => simp [addInvoice, invoiceContribution, qualifies, hs, hty, ham]
      | some a =>
        by_cases ha : a = 0
        · subst ha
          by_cases hteq : t' = t <;>
            simp [addInvoice, invoiceContribution, qualifies, hs, hty, ham, hteq]
        · simp only [addInvoice, hs, hty, ham, ha, if_false]
          rw [mTotal_updateFirst m key t t' a h]
          by_cases hteq : t = t'
          · simp [invoiceContribution, qualifies, hs, hty, ham, hteq, if_true]
          · have hteq2 : ¬ t' = t := fun hx => hteq hx.symm
            simp [invoiceContribution, qualifies, hs, hty, ham, hteq, hteq2]
  | pending => simp [addInvoice, invoiceContribution, qualifies, hs]
  | parsing => simp [addInvoice, invoiceContribution, qualifies, hs]
  | error => simp [addInvoice, invoiceContribution, qualifies, hs]

lemma mTotal_addInvoices (key : String) (invs : List InvoiceInfo) (t : InvoiceType) :
    ∀ m, (lookupEntry m key).isSome →
      mTotal t (addInvoices m key invs) = mTotal t m + catSum t invs := by
  induction invs with
  | nil => intro m _; simp [addInvoices, catSum]
  | cons inv rest ih =>
    intro m h
    have h2 : (lookupEntry (addInvoice m key inv) key).isSome := by
      rw [lookupEntry_addInvoice_isSome]; exact h
    have hstep : addInvoices m key (inv :: rest)
        = addInvoices (addInvoice m key inv) key rest := rfl
    rw [hstep, ih _ h2, mTotal_addInvoice m key inv t h, catSum]
    ring

lemma mTotal_append (t : InvoiceType) (m1 m2 : List (String × SummaryEntry)) :
    mTotal t (m1 ++ m2) = mTotal t m1 + mTotal t m2 := by
  induction m1 with
  | nil => simp [mTotal]
  | cons kv rest ih =>
    obtain ⟨k, e⟩ := kv
    simp [mTotal, ih]
    ring

lemma entryList_freshEntry (p : PersonInfo) (t : InvoiceType) :
    entryList (freshEntry p) t = [] := by
  cases t <;> rfl

lemma lookupEntry_append_of_none (m1 m2 : List (String × SummaryEntry)) (key : String)
    (h : lookupEntry m1 key = none) :
    lookupEntry (m1 ++ m2) key = lookupEntry m2 key := by
  induction m1 with
  | nil => rfl
  | cons kv rest ih =>
    obtain ⟨k, e⟩ := kv
    by_cases hk : k = key
    · simp [lookupEntry, hk] at h
    · simp only [lookupEntry, hk, if_false] at h
      simp [lookupEntry, hk, ih h]

lemma mTotal_insertPerson (t : InvoiceType) (m : List (String × SummaryEntry))
    (p : PersonInfo) :
    mTotal t (insertPerson m p) = mTotal t m + catSum t p.invoices := by
  by_cases h : (lookupEntry m (keyOf p)).isSome
  · have hm1 : insertPerson m p = addInvoices m (keyOf p) p.invoices := by
      unfold insertPerson
      simp [h]
    rw [hm1, mTotal_addInvoices _ _ _ _ h]
  · have hn : lookupEntry m (keyOf p) = none := by
      cases hl : lookupEntry m (keyOf p)
      · rfl
      · rw [hl] at h; simp at h
    have hm1 : insertPerson m p
        = addInvoices (m ++ [(keyOf p, freshEntry p)]) (keyOf p) p.invoices := by
      unfold insertPerson
      simp [h]
    have hsome : (lookupEntry (m ++ [(keyOf p, freshEntry p)]) (keyOf p)).isSome := by
      rw [lookupEntry_append_of_none _ _ _ hn]
      simp [lookupEntry]
    rw [hm1, mTotal_addInvoices _ _ _ _ hsome, mTotal_append]
    simp [mTotal, entryList_freshEntry, rsum]

lemma mTotal_buildEntries (t : InvoiceType) (persons : List PersonInfo) :
    ∀ m, mTotal t (persons.foldl insertPerson m) = mTotal t m + categoryTotal t persons := by
  induction persons with
  | nil => intro m; simp [categoryTotal]
  | cons p rest ih =>
    intro m
    rw [List.foldl_cons, ih, mTotal_insertPerson, categoryTotal]
    ring

lemma subtotalFor_foldl (t : InvoiceType) (es : List SummaryEntry) :
    ∀ s, subtotalFor (es.foldl addEntrySubtotals s) t = subtotalFor s t + esumT t es := by
  induction es with
  | nil => intro s; simp [esumT]
  | cons e rest ih =>
    intro s
    rw [List.foldl_cons, ih, esumT]
    cases t <;> simp [subtotalFor, addEntrySubtotals, entryList] <;> ring

lemma esumT_map_snd (t : InvoiceType) (m : List (String × SummaryEntry)) :
    esumT t (m.map fun kv => kv.2) = mTotal t m := by
  induction m with
  | nil => rfl
  | cons kv rest ih =>
    obtain ⟨k, e⟩ := kv
    simp [esumT, mTotal, ih]

/-- C7: in the summary export, the subtotal of each category equals the sum
of the amounts of all successful invoices of that category across all
persons (an unknown amount counting as 0), and the grand total is the sum
of the four category subtotals. -/
theorem summary_subtotals_correct (persons : List PersonInfo) (t : InvoiceType) :
    subtotalFor (computeSubtotals (entriesOf persons)) t = categoryTotal t persons
    ∧ grandTotal (computeSubtotals (entriesOf persons))
      = subtotalFor (computeSubtotals (entriesOf persons)) InvoiceType.intercity_transport
        + subtotalFor (computeSubtotals (entriesOf persons)) InvoiceType.intracity_transport
        + subtotalFor (computeSubtotals (entriesOf persons)) InvoiceType.accommodation
        + subtotalFor (computeSubtotals (entriesOf persons)) InvoiceType.registration_fee := by
  constructor
  · unfold computeSubtotals
    rw [subtotalFor_foldl]
    have h0 : subtotalFor
        { intercity := 0, intracity := 0, accommodation := 0, registration := (0 : Rat) } t
        = 0 := by cases t <;> rfl
    rw [h0, zero_add]
    unfold entriesOf buildEntries
    rw [esumT_map_snd, mTotal_buildEntries]
    simp [mTotal]
  · rfl

lemma addInvoice_zero (m : List (String × SummaryEntry)) (key : String) (inv : InvoiceInfo)
    (h3 : inv.amount = none ∨ inv.amount = some 0) :
    addInvoice m key inv = m := by
  rcases h3 with h3 | h3 <;>
    cases hs : inv.parseStatus <;> cases hty : inv.type <;>
      simp [addInvoice, hs, hty, h3]

lemma addInvoices_append_zero (m : List (String × SummaryEntry)) (key : String)
    (invs : List InvoiceInfo) (inv : InvoiceInfo)
    (h3 : inv.amount = none ∨ inv.amount = some 0) :
    addInvoices m key (invs ++ [inv]) = addInvoices m key invs := by
  unfold addInvoices
  rw [List.foldl_append]
  simp [addInvoice_zero _ key inv h3]

lemma insertPerson_drop_zero (m : List (String × SummaryEntry)) (p : PersonInfo)
    (invs : List InvoiceInfo) (inv : InvoiceInfo)
    (h3 : inv.amount = none ∨ inv.amount = some 0) :
    insertPerson m { p with invoices := invs ++ [inv] }
      = insertPerson m { p with invoices := invs } := by
  unfold insertPerson
  exact addInvoices_append_zero _ _ invs inv h3

lemma buildEntries_congr_middle (pre suf : List PersonInfo) (p1 p2 : PersonInfo)
    (h : ∀ m, insertPerson m p1 = insertPerson m p2) :
    buildEntries (pre ++ p1 :: suf) = buildEntries (pre ++ p2 :: suf) := by
  unfold buildEntries
  rw [List.foldl_append, List.foldl_append]
  simp only [List.foldl_cons]
  rw [h]

lemma mem_detailRows_middle (pre suf : List PersonInfo) (p : PersonInfo) (row : ExportRow)
    (h : row ∈ detailRowsOfPerson p) : row ∈ detailRows (pre ++ p :: suf) := by
  induction pre with
  | nil =>
    rw [List.nil_append]
    show row ∈ detailRowsOfPerson p ++ detailRows suf
    exact List.mem_append_left _ h
  | cons q rest ih =>
    rw [List.cons_append]
    show row ∈ detailRowsOfPerson q ++ detailRows (rest ++ p :: suf)
    exact List.mem_append_right _ ih

/-- C10: a successful categorized invoice whose amount is null or 0 is
invisible to the summary export — adding it to a person's invoices leaves
the grouped entries (hence all summary rows and subtotals) unchanged —
while the detail export does give it a row, with the amount rendered
as 0. -/
theorem zero_amount_detail_vs_summary (pre suf : List PersonInfo) (p : PersonInfo)
    (invs : List InvoiceInfo) (inv : InvoiceInfo) (t : InvoiceType)
    (h1 : inv.parseStatus = ParseStatus.success) (h2 : inv.type = some t)
    (h3 : inv.amount = none ∨ inv.amount = some 0) :
    buildEntries (pre ++ { p with invoices := invs ++ [inv] } :: suf)
      = buildEntries (pre ++ { p with invoices := invs } :: suf)
    ∧ (∀ ti, summarySheet (pre ++ { p with invoices := invs ++ [inv] } :: suf) ti
        = summarySheet (pre ++ { p with invoices := invs } :: suf) ti)
    ∧ detailRowOf { p with invoices := invs ++ [inv] } inv
        ∈ detailRows (pre ++ { p with invoices := invs ++ [inv] } :: suf)
    ∧ (detailRowOf { p with invoices := invs ++ [inv] } inv).amount = 0 := by
  have hbe : buildEntries (pre ++ { p with invoices := invs ++ [inv] } :: suf)
      = buildEntries (pre ++ { p with invoices := invs } :: suf) :=
    buildEntries_congr_middle pre suf _ _ fun m => insertPerson_drop_zero m p invs inv h3
  refine ⟨hbe, fun ti => ?_, ?_, ?_⟩
  · unfold summarySheet entriesOf
    rw [hbe]
  · apply mem_detailRows_middle
    unfold detailRowsOfPerson
    rw [show ({ p with invoices := invs ++ [inv] } : PersonInfo).invoices
        = invs ++ [inv] from rfl]
    rw [List.filterMap_append]
    apply List.mem_append_right
    simp [detailRow?, h1, h2]
  · rcases h3 with h3 | h3 <;> simp [detailRowOf, h3]

/-- C10 witness: a successful accommodation invoice with a null amount adds
nothing to the summary grouping of its person but appears in the detail
rows with amount 0. -/
theorem zero_amount_detail_vs_summary_witness :
    buildEntries [{ personA with invoices := [] ++ [invZero] }]
      = buildEntries [{ personA with invoices := [] }]
    ∧ detailRowOf { personA with invoices := [] ++ [invZero] } invZero
        ∈ detailRows [{ personA with invoices := [] ++ [invZero] }]
    ∧ (detailRowOf { personA with invoices := [] ++ [invZero] } invZero).amount = 0 := by
  have h := zero_amount_detail_vs_summary [] [] personA [] invZero
    InvoiceType.accommodation rfl rfl (Or.inl rfl)
  exact ⟨h.1, h.2.2.1, h.2.2.2⟩

lemma padWhile_closed : ∀ (k n : Nat) (rows : List SheetRow), n - rows.length ≤ k →
    padWhile n rows = rows ++ List.replicate (n - rows.length) ([] : SheetRow) := by
  intro k
  induction k with
  | zero =>
    intro n rows h
    rw [padWhile]
    have hlt : ¬ rows.length < n := by omega
    have hz : n - rows.length = 0 := by omega
    simp [hlt, hz]
  | succ k ih =>
    intro n rows h
    rw [padWhile]
    by_cases hlt : rows.length < n
    · simp only [hlt, if_true]
      rw [ih n (rows ++ [[]]) (by simp [List.length_append]; omega)]
      have hc : n - rows.length = (n - (rows.length + 1)) + 1 := by omega
      simp [List.append_assoc, List.length_append, hc, List.replicate_succ]
    · have hz : n - rows.length = 0 := by omega
      simp [hlt, hz]

lemma padWhile_eq (n : Nat) (rows : List SheetRow) :
    padWhile n rows = rows ++ List.replicate (n - rows.length) ([] : SheetRow) :=
  padWhile_closed (n - rows.length) n rows le_rfl

/-- C8 counterexample: for the empty collection the summary sheet has 13
rows — a header, five padding rows, the subtotal row, then an EMPTY spacer
row and FIVE metadata lines; the claimed layout (exactly four metadata
lines directly after the subtotal row) would give 11 rows with no spacer. -/
theorem summary_sheet_counterexample :
    (summarySheet [] travelA).length = 13
    ∧ List.drop 7 (summarySheet [] travelA) = ([] : SheetRow) :: metadataRows travelA
    ∧ (metadataRows travelA).length = 5 := by
  have h6 : summarySheet [] travelA
      = padWhile 6 [summaryHeaderRow]
        ++ subtotalRow (computeSubtotals (entriesOf []))
          :: ([] : SheetRow) :: metadataRows travelA := rfl
  rw [padWhile_eq] at h6
  refine ⟨?_, ?_, rfl⟩
  · rw [h6]; rfl
  · rw [h6]; rfl

/-- C8 amended: the summary sheet is a header row, the per-invoice data
rows padded to at least five data rows, one subtotal row carrying the four
category sums and the grand total, then one empty spacer row followed by
five metadata lines echoing the trip metadata (competition name, time,
location, team name, remarks). -/
theorem summary_sheet_structure (persons : List PersonInfo) (ti : TravelInfo) :
    summarySheet persons ti
      = summaryHeaderRow
        :: ((dataRowsOf (entriesOf persons)
              ++ List.replicate (5 - (dataRowsOf (entriesOf persons)).length) [])
            ++ subtotalRow (computeSubtotals (entriesOf persons))
              :: ([] : SheetRow) :: metadataRows ti)
    ∧ 5 ≤ (dataRowsOf (entriesOf persons)
            ++ List.replicate (5 - (dataRowsOf (entriesOf persons)).length)
                ([] : SheetRow)).length
    ∧ (metadataRows ti).length = 5 := by
  refine ⟨?_, ?_, rfl⟩
  · show padWhile 6 (summaryHeaderRow :: dataRowsOf (entriesOf persons))
        ++ subtotalRow (computeSubtotals (entriesOf persons))
          :: ([] : SheetRow) :: metadataRows ti = _
    rw [padWhile_eq]
    have hc : (6 : Nat) - (summaryHeaderRow :: dataRowsOf (entriesOf persons)).length
        = 5 - (dataRowsOf (entriesOf persons)).length := by
      simp [List.length_cons]
    rw [hc]
    simp [List.cons_append, List.append_assoc]
  · simp [List.length_append, List.length_replicate]
    omega
